import Mathlib

/-!
Verification of the deno-libclang FFI binding layer.

This file gives a shallow embedding of the marshaling layer of a Deno
FFI binding for libclang: the struct codec for `CXCursor` (40-byte
buffer: u32 kind, i32 xdata, three u64 pointers, 8 bytes of padding)
and `CXType` (24-byte buffer: u32 kind, u32 reserved, two u64
pointers), the global traversal state of `src/ffi/state.ts`, the
visitor trampoline of the cursor module, the load/unload lifecycle of
`src/libclang/library.ts`, the diagnostics enumeration, and the
translation-unit parse entry point.  Byte buffers are modelled as
`List Nat` of little-endian bytes; machine integers are `Nat`/`Int`
with explicit reductions modulo 2^32 / 2^64 where the `DataView`
accessors truncate.
-/

namespace DenoLibclang

/-- Little-endian byte encoding of a natural number into `w` bytes,
matching `DataView.setUint32`/`setBigUint64` with littleEndian = true
(values are truncated to the field width, as the JS setters do). -/
def toLE : Nat → Nat → List Nat
  | 0, _ => []
  | w + 1, v => v % 256 :: toLE w (v / 256)

/-- Little-endian byte decoding, matching `DataView.getUint32`/`getBigUint64`. -/
def ofLE : List Nat → Nat
  | [] => 0
  | b :: bs => b + 256 * ofLE bs

theorem toLE_length (w v : Nat) : (toLE w v).length = w := by
  induction w generalizing v with
  | zero => rfl
  | succ w ih => simp [toLE, ih]

theorem ofLE_toLE (w v : Nat) (h : v < 256 ^ w) : ofLE (toLE w v) = v := by
  induction w generalizing v with
  | zero =>
    simp [Nat.pow_zero] at h
    simp [toLE, ofLE, h]
  | succ w ih =>
    have hdiv : v / 256 < 256 ^ w := by
      rw [Nat.div_lt_iff_lt_mul (by norm_num : 0 < 256)]
      calc v < 256 ^ (w + 1) := h
        _ = 256 ^ w * 256 := by rw [Nat.pow_succ]
    simp only [toLE, ofLE, ih (v / 256) hdiv]
    omega

/-- Read a `w`-byte little-endian field at byte offset `off` of a buffer,
as the `DataView` getters do on an `(buffer, byteOffset, byteLength)` view. -/
def readField (buf : List Nat) (off w : Nat) : Nat :=
  ofLE ((buf.drop off).take w)

theorem take_append_len {α : Type} (a b : List α) (n : Nat) (h : a.length = n) :
    (a ++ b).take n = a := by
  induction a generalizing n with
  | nil => simp at h; simp [h]
  | cons x xs ih =>
    cases n with
    | zero => simp at h
    | succ m =>
      simp only [List.length_cons, Nat.succ.injEq] at h
      simp [List.take_succ_cons, ih xs.length rfl, h, ih m h]

theorem drop_append_len {α : Type} (a b : List α) (n : Nat) (h : a.length = n) :
    (a ++ b).drop n = b := by
  induction a generalizing n with
  | nil => simp only [List.length_nil] at h; cases h; simp
  | cons x xs ih =>
    cases n with
    | zero => simp at h
    | succ m =>
      simp only [List.length_cons, Nat.succ.injEq] at h
      simpa using ih m h

theorem readField_start (w v : Nat) (rest : List Nat) (h : v < 256 ^ w) :
    readField (toLE w v ++ rest) 0 w = v := by
  unfold readField
  rw [List.drop_zero, take_append_len _ _ w (toLE_length w v), ofLE_toLE w v h]

theorem readField_skip (a rest : List Nat) (k o w : Nat) (h : a.length = k) :
    readField (a ++ rest) (k + o) w = readField rest o w := by
  unfold readField
  congr 1
  induction a generalizing k with
  | nil => simp only [List.length_nil] at h; cases h; simp
  | cons x xs ih =>
    cases k with
    | zero => simp at h
    | succ m =>
      simp only [List.length_cons, Nat.succ.injEq] at h
      simpa [Nat.succ_add] using ih m h

/-- Decoded `CXCursor` value: `{ kind: u32, xdata: i32, data: [ptr, ptr, ptr] }`
(`src/ffi/types.ts`).  The three opaque data words are address-sized naturals. -/
structure CXCursorV where
  kind : Nat
  xdata : Int
  data0 : Nat
  data1 : Nat
  data2 : Nat
  deriving DecidableEq, Repr

/-- Decoded `CXType` value: `{ kind: u32, reserved: u32, data0: ptr, data1: ptr }`. -/
structure CXTypeV where
  kind : Nat
  reserved : Nat
  data0 : Nat
  data1 : Nat
  deriving DecidableEq, Repr

/-- Two's-complement bit pattern stored by `DataView.setInt32`. -/
def int32Bits (x : Int) : Nat := (x % 4294967296).toNat

/-- Signed value recovered by `DataView.getInt32` from a 32-bit pattern. -/
def int32Val (n : Nat) : Int :=
  if n < 2147483648 then (n : Int) else (n : Int) - 4294967296

theorem int32Bits_lt (x : Int) : int32Bits x < 4294967296 := by
  unfold int32Bits
  omega

theorem int32Val_int32Bits (x : Int) (h1 : -2147483648 ≤ x) (h2 : x < 2147483648) :
    int32Val (int32Bits x) = x := by
  unfold int32Bits int32Val
  split <;> omega

/-- Field bounds under which a decoded cursor is representable in the ABI
struct: `kind` fits in u32, `xdata` in i32, the data words in u64. -/
def WFCursor (c : CXCursorV) : Prop :=
  c.kind < 4294967296 ∧ -2147483648 ≤ c.xdata ∧ c.xdata < 2147483648 ∧
    c.data0 < 18446744073709551616 ∧ c.data1 < 18446744073709551616 ∧
    c.data2 < 18446744073709551616

instance (c : CXCursorV) : Decidable (WFCursor c) := by
  unfold WFCursor; infer_instance

/-- Field bounds for a representable `CXType` value. -/
def WFType (t : CXTypeV) : Prop :=
  t.kind < 4294967296 ∧ t.reserved < 4294967296 ∧
    t.data0 < 18446744073709551616 ∧ t.data1 < 18446744073709551616

instance (t : CXTypeV) : Decidable (WFType t) := by
  unfold WFType; infer_instance

/-- The 40-byte buffer written by the `NativeCXCursor` constructor
(`src/libclang/native_cursor.ts`): kind at 0 (u32), xdata at 4 (i32),
data words at 8/16/24 (u64), zero padding to 40 bytes. -/
def encodeCXCursor (c : CXCursorV) : List Nat :=
  toLE 4 c.kind ++ (toLE 4 (int32Bits c.xdata) ++ (toLE 8 c.data0 ++
    (toLE 8 c.data1 ++ (toLE 8 c.data2 ++ List.replicate 8 0))))

/-- `parseCursorBuffer` of `src/ffi/state.ts` (the same offsets are read by
`NativeCXCursor.toCXCursor`): u32 at 0, i32 at 4, u64 at 8, 16, 24. -/
def parseCursorBuffer (buf : List Nat) : CXCursorV :=
  { kind := readField buf 0 4
    xdata := int32Val (readField buf 4 4)
    data0 := readField buf 8 8
    data1 := readField buf 16 8
    data2 := readField buf 24 8 }

/-- `cxTypeToBuffer` of the type module: 24-byte buffer, kind at 0 (u32),
reserved at 4 (u32), data words at 8 and 16 (u64). -/
def cxTypeToBuffer (t : CXTypeV) : List Nat :=
  toLE 4 t.kind ++ (toLE 4 t.reserved ++ (toLE 8 t.data0 ++ toLE 8 t.data1))

/-- `parseCXTypeFromBuffer` of the type module: u32 at 0 and 4, u64 at 8 and 16. -/
def parseCXTypeFromBuffer (buf : List Nat) : CXTypeV :=
  { kind := readField buf 0 4
    reserved := readField buf 4 4
    data0 := readField buf 8 8
    data1 := readField buf 16 8 }

theorem cursor_roundtrip (c : CXCursorV) (h : WFCursor c) :
    parseCursorBuffer (encodeCXCursor c) = c := by
  obtain ⟨hk, hx1, hx2, h0, h1, h2⟩ := h
  have e256_4 : (256 : Nat) ^ 4 = 4294967296 := by norm_num
  have e256_8 : (256 : Nat) ^ 8 = 18446744073709551616 := by norm_num
  unfold parseCursorBuffer encodeCXCursor
  have hkind : readField (toLE 4 c.kind ++ (toLE 4 (int32Bits c.xdata) ++
      (toLE 8 c.data0 ++ (toLE 8 c.data1 ++ (toLE 8 c.data2 ++ List.replicate 8 0)))))
      0 4 = c.kind := readField_start 4 c.kind _ (by rw [e256_4]; exact hk)
  have hx : readField (toLE 4 c.kind ++ (toLE 4 (int32Bits c.xdata) ++
      (toLE 8 c.data0 ++ (toLE 8 c.data1 ++ (toLE 8 c.data2 ++ List.replicate 8 0)))))
      4 4 = int32Bits c.xdata := by
    have := readField_skip (toLE 4 c.kind) (toLE 4 (int32Bits c.xdata) ++
      (toLE 8 c.data0 ++ (toLE 8 c.data1 ++ (toLE 8 c.data2 ++ List.replicate 8 0))))
      4 0 4 (toLE_length 4 c.kind)
    rw [show (4 : Nat) = 4 + 0 from rfl, this]
    exact readField_start 4 (int32Bits c.xdata) _ (by rw [e256_4]; exact int32Bits_lt c.xdata)
  have hd0 : readField (toLE 4 c.kind ++ (toLE 4 (int32Bits c.xdata) ++
      (toLE 8 c.data0 ++ (toLE 8 c.data1 ++ (toLE 8 c.data2 ++ List.replicate 8 0)))))
      8 8 = c.data0 := by
    rw [show (8 : Nat) = 4 + 4 from rfl,
      readField_skip _ _ 4 4 8 (toLE_length 4 c.kind),
      show (4 : Nat) = 4 + 0 from rfl,
      readField_skip _ _ 4 0 8 (toLE_length 4 (int32Bits c.xdata))]
    exact readField_start 8 c.data0 _ (by rw [e256_8]; exact h0)
  have hd1 : readField (toLE 4 c.kind ++ (toLE 4 (int32Bits c.xdata) ++
      (toLE 8 c.data0 ++ (toLE 8 c.data1 ++ (toLE 8 c.data2 ++ List.replicate 8 0)))))
      16 8 = c.data1 := by
    rw [show (16 : Nat) = 4 + 12 from rfl,
      readField_skip _ _ 4 12 8 (toLE_length 4 c.kind),
      show (12 : Nat) = 4 + 8 from rfl,
      readField_skip _ _ 4 8 8 (toLE_length 4 (int32Bits c.xdata)),
      show (8 : Nat) = 8 + 0 from rfl,
      readField_skip _ _ 8 0 8 (toLE_length 8 c.data0)]
    exact readField_start 8 c.data1 _ (by rw [e256_8]; exact h1)
  have hd2 : readField (toLE 4 c.kind ++ (toLE 4 (int32Bits c.xdata) ++
      (toLE 8 c.data0 ++ (toLE 8 c.data1 ++ (toLE 8 c.data2 ++ List.replicate 8 0)))))
      24 8 = c.data2 := by
    rw [show (24 : Nat) = 4 + 20 from rfl,
      readField_skip _ _ 4 20 8 (toLE_length 4 c.kind),
      show (20 : Nat) = 4 + 16 from rfl,
      readField_skip _ _ 4 16 8 (toLE_length 4 (int32Bits c.xdata)),
      show (16 : Nat) = 8 + 8 from rfl,
      readField_skip _ _ 8 8 8 (toLE_length 8 c.data0),
      show (8 : Nat) = 8 + 0 from rfl,
      readField_skip _ _ 8 0 8 (toLE_length 8 c.data1)]
    exact readField_start 8 c.data2 _ (by rw [e256_8]; exact h2)
  rw [hkind, hx, hd0, hd1, hd2, int32Val_int32Bits c.xdata hx1 hx2]

theorem type_roundtrip (t : CXTypeV) (h : WFType t) :
    parseCXTypeFromBuffer (cxTypeToBuffer t) = t := by
  obtain ⟨hk, hr, h0, h1⟩ := h
  have e256_4 : (256 : Nat) ^ 4 = 4294967296 := by norm_num
  have e256_8 : (256 : Nat) ^ 8 = 18446744073709551616 := by norm_num
  unfold parseCXTypeFromBuffer cxTypeToBuffer
  have hkind : readField (toLE 4 t.kind ++ (toLE 4 t.reserved ++
      (toLE 8 t.data0 ++ toLE 8 t.data1))) 0 4 = t.kind :=
    readField_start 4 t.kind _ (by rw [e256_4]; exact hk)
  have hres : readField (toLE 4 t.kind ++ (toLE 4 t.reserved ++
      (toLE 8 t.data0 ++ toLE 8 t.data1))) 4 4 = t.reserved := by
    rw [show (4 : Nat) = 4 + 0 from rfl,
      readField_skip _ _ 4 0 4 (toLE_length 4 t.kind)]
    exact readField_start 4 t.reserved _ (by rw [e256_4]; exact hr)
  have hd0 : readField (toLE 4 t.kind ++ (toLE 4 t.reserved ++
      (toLE 8 t.data0 ++ toLE 8 t.data1))) 8 8 = t.data0 := by
    rw [show (8 : Nat) = 4 + 4 from rfl,
      readField_skip _ _ 4 4 8 (toLE_length 4 t.kind),
      show (4 : Nat) = 4 + 0 from rfl,
      readField_skip _ _ 4 0 8 (toLE_length 4 t.reserved)]
    exact readField_start 8 t.data0 _ (by rw [e256_8]; exact h0)
  have hd1 : readField (toLE 4 t.kind ++ (toLE 4 t.reserved ++
      (toLE 8 t.data0 ++ toLE 8 t.data1))) 16 8 = t.data1 := by
    rw [show (16 : Nat) = 4 + 12 from rfl,
      readField_skip _ _ 4 12 8 (toLE_length 4 t.kind),
      show (12 : Nat) = 4 + 8 from rfl,
      readField_skip _ _ 4 8 8 (toLE_length 4 t.reserved),
      show (8 : Nat) = 8 + 0 from rfl,
      readField_skip _ _ 8 0 8 (toLE_length 8 t.data0)]
    exact readField_start 8 t.data1 _ (by rw [e256_8]; exact h1)
  rw [hkind, hres, hd0, hd1]

/-- Claim C1: for both ABI struct shapes (cursor and type descriptor),
decoding an encoded value returns the original value, for every field
assignment within the fields' machine widths (including zero and maximum
address-sized values). -/
theorem struct_codec_roundtrip :
    (∀ c : CXCursorV, WFCursor c → parseCursorBuffer (encodeCXCursor c) = c) ∧
    (∀ t : CXTypeV, WFType t → parseCXTypeFromBuffer (cxTypeToBuffer t) = t) :=
  ⟨cursor_roundtrip, type_roundtrip⟩

/-- Witness for C1: the round-trip at the all-zero cursor, at a cursor with
every field at its maximum machine value, and at zero/maximum type
descriptors. -/
theorem struct_codec_roundtrip_witness :
    parseCursorBuffer (encodeCXCursor ⟨0, 0, 0, 0, 0⟩) = ⟨0, 0, 0, 0, 0⟩ ∧
    parseCursorBuffer (encodeCXCursor
        ⟨4294967295, -2147483648, 18446744073709551615, 18446744073709551615,
          18446744073709551615⟩) =
      ⟨4294967295, -2147483648, 18446744073709551615, 18446744073709551615,
        18446744073709551615⟩ ∧
    parseCXTypeFromBuffer (cxTypeToBuffer ⟨0, 0, 0, 0⟩) = ⟨0, 0, 0, 0⟩ ∧
    parseCXTypeFromBuffer (cxTypeToBuffer
        ⟨4294967295, 4294967295, 18446744073709551615, 18446744073709551615⟩) =
      ⟨4294967295, 4294967295, 18446744073709551615, 18446744073709551615⟩ :=
  ⟨struct_codec_roundtrip.1 _ (by decide),
   struct_codec_roundtrip.1 _ (by decide),
   struct_codec_roundtrip.2 _ (by decide),
   struct_codec_roundtrip.2 _ (by decide)⟩

/-! ## Tree traversal bridge

`src/ffi/state.ts` holds the global armed-visitor slot and the collected
cursor-buffer list; the cursor module's `visitChildren` arms a visitor,
invokes the native `clang_visitChildren`, then reads and clears the
collected buffers.  The native traversal itself (the opaque libclang
collaborator) is modelled from its documented contract: it invokes the
registered callback once per child, in order, with the child's struct
buffer and the parent's struct buffer; a returned code of 0 stops the
traversal, 2 recurses into the child's children, and any other code
continues with the next sibling.  A fuel parameter makes the mutual
recursion between the trampoline (whose visitor may itself start a
nested traversal) and the native loop structural; every theorem
quantifies over sufficient fuel. -/

/-- `CXChildVisitResult` constants of `src/ffi/types.ts`. -/
def CXChildVisitResult.Continue : Nat := 0

/-- `CXChildVisitResult.Break = 1` in `src/ffi/types.ts`. -/
def CXChildVisitResult.Break : Nat := 1

/-- `CXChildVisitResult.Recurse = 2` in `src/ffi/types.ts`. -/
def CXChildVisitResult.Recurse : Nat := 2

/-- The return-value mapping of the visitor trampoline
(`createVisitorCallback`): `result === 0 ? 1 : 0`, commented in the
source as compensating an empirically discovered inversion of the
callback return value. -/
def mapVisitResult (result : Nat) : Nat := if result = 0 then 1 else 0

/-- The sentinel null cursor the trampoline passes as the parent argument:
kind 0, xdata 0, all three data words null. -/
def nullCursor : CXCursorV := ⟨0, 0, 0, 0, 0⟩

/-- An AST subtree as the native library would traverse it: a node's
cursor value and its child subtrees. -/
inductive VTree where
  | node (cursor : CXCursorV) (children : List VTree)
  deriving Repr

/-- The cursor at the root of a subtree. -/
def VTree.cursor : VTree → CXCursorV
  | .node c _ => c

/-- The child subtrees of a subtree's root. -/
def VTree.children : VTree → List VTree
  | .node _ ts => ts

/-- The observable behaviour of one visitor invocation: either return a
`CXChildVisitResult` code directly, or first run a nested `visitChildren`
traversal over a target subtree with a plain inner visitor and then
return a code.  This covers both plain visitors and visitors that
re-enter the traversal bridge. -/
inductive VAction where
  | res (r : Nat)
  | nestThen (target : VTree) (inner : CXCursorV → CXCursorV → Nat) (r : Nat)

/-- The global traversal state of `src/ffi/state.ts`: the armed visitor
slot `currentVisitor` and the collected buffer list
`collectedCursorBuffers`. -/
structure VisitState where
  currentVisitor : Option (CXCursorV → CXCursorV → VAction)
  collected : List (List Nat)

/-- `setVisitor` of `src/ffi/state.ts`: stores the visitor and resets the
collected buffer list to `[]`. -/
def setVisitor (v : Option (CXCursorV → CXCursorV → VAction)) (_s : VisitState) :
    VisitState :=
  { currentVisitor := v, collected := [] }

/-- `addCollectedCursorBuffer` of `src/ffi/state.ts`. -/
def addCollectedCursorBuffer (b : List Nat) (s : VisitState) : VisitState :=
  { s with collected := s.collected ++ [b] }

/-- `getCollectedCursorBuffers` of `src/ffi/state.ts`. -/
def getCollectedCursorBuffers (s : VisitState) : List (List Nat) := s.collected

/-- `clearCollectedCursors` of `src/ffi/state.ts`. -/
def clearCollectedCursors (s : VisitState) : VisitState :=
  { s with collected := [] }

/-- `getVisitor` of `src/ffi/state.ts`. -/
def getVisitor (s : VisitState) : Option (CXCursorV → CXCursorV → VAction) :=
  s.currentVisitor

/-- A plain visitor as a `VAction`-valued visitor. -/
def plainVisitor (f : CXCursorV → CXCursorV → Nat) : CXCursorV → CXCursorV → VAction :=
  fun c p => VAction.res (f c p)

/-- One invocation of the `Deno.UnsafeCallback` body built by
`createVisitorCallback`: decode the node struct buffer field by field,
re-encode the fields into a fresh 40-byte `NativeCXCursor` snapshot,
invoke the current visitor with the decoded cursor and the sentinel
null parent (the supplied parent buffer is ignored), collect the
snapshot, and return `mapVisitResult` of the visitor's code; with no
visitor armed, return `CXChildVisitResult.Continue` unmapped.  When the
visitor's action nests, the body performs the inner `visitChildren`
sequence of the cursor module: arm the inner visitor (which resets the
collected list), run the nested native traversal through `nestedRun`,
then clear the collected cursors and disarm.  The third component logs
the (cursor, parent) pairs handed to visitors. -/
def trampolineStep
    (nestedRun : VTree → VisitState → Bool × VisitState × List (CXCursorV × CXCursorV))
    (cursorBuf _parentBuf : List Nat) (s : VisitState) :
    Nat × VisitState × List (CXCursorV × CXCursorV) :=
  let cursor := parseCursorBuffer cursorBuf
  let cursorBuffer := encodeCXCursor cursor
  match getVisitor s with
  | none => (CXChildVisitResult.Continue, s, [])
  | some v =>
    match v cursor nullCursor with
    | VAction.res r =>
      (mapVisitResult r, addCollectedCursorBuffer cursorBuffer s, [(cursor, nullCursor)])
    | VAction.nestThen target inner r =>
      let s1 := setVisitor (some (plainVisitor inner)) s
      let run := nestedRun target s1
      let s3 := setVisitor none (clearCollectedCursors run.2.1)
      (mapVisitResult r, addCollectedCursorBuffer cursorBuffer s3,
        (cursor, nullCursor) :: run.2.2)

/-- The native depth-first loop of `clang_visitChildren` over a list of
sibling subtrees, modelled from the native library's documented
contract; `fuel` decreases on every recursive call so the recursion is
structural.  Returns whether the loop ran to completion, the final
state, and the log of visitor invocations. -/
def visitTrees : Nat → CXCursorV → List VTree → VisitState →
    Bool × VisitState × List (CXCursorV × CXCursorV)
  | 0, _, _, s => (true, s, [])
  | _ + 1, _, [], s => (true, s, [])
  | fuel + 1, parent, t :: rest, s =>
    let step := trampolineStep (fun tgt st => visitTrees fuel tgt.cursor tgt.children st)
      (encodeCXCursor t.cursor) (encodeCXCursor parent) s
    if step.1 = 0 then (false, step.2.1, step.2.2)
    else if step.1 = 2 then
      let inner := visitTrees fuel t.cursor t.children step.2.1
      if inner.1 then
        let sib := visitTrees fuel parent rest inner.2.1
        (sib.1, sib.2.1, step.2.2 ++ inner.2.2 ++ sib.2.2)
      else (false, inner.2.1, step.2.2 ++ inner.2.2)
    else
      let sib := visitTrees fuel parent rest step.2.1
      (sib.1, sib.2.1, step.2.2 ++ sib.2.2)

/-- `visitChildren` of the cursor module: arm the visitor (resetting the
collected list), run the native traversal over the cursor's children,
read the collected buffers, clear them, disarm, and return the buffers;
the invocation log is carried alongside for specification purposes. -/
def visitChildren (fuel : Nat) (t : VTree)
    (visitor : CXCursorV → CXCursorV → VAction) (s : VisitState) :
    (List (List Nat) × VisitState) × List (CXCursorV × CXCursorV) :=
  let s0 := setVisitor (some visitor) s
  let run := visitTrees fuel t.cursor t.children s0
  let buffers := getCollectedCursorBuffers run.2.1
  let s2 := setVisitor none (clearCollectedCursors run.2.1)
  ((buffers, s2), run.2.2)

/-- Specification-level visited sequence of a plain visitor over a list of
sibling subtrees: every node up to and including the first one on which
the visitor does not return Continue. -/
def visitedSeq (f : CXCursorV → CXCursorV → Nat) : List VTree → List CXCursorV
  | [] => []
  | t :: rest =>
    t.cursor ::
      (if f t.cursor nullCursor = CXChildVisitResult.Continue then visitedSeq f rest
       else [])

/-- Whether a plain visitor lets the whole sibling list be traversed. -/
def noBreak (f : CXCursorV → CXCursorV → Nat) : List VTree → Bool
  | [] => true
  | t :: rest =>
    if f t.cursor nullCursor = CXChildVisitResult.Continue then noBreak f rest
    else false

theorem visitedSeq_mem (f : CXCursorV → CXCursorV → Nat) :
    ∀ (ts : List VTree), ∀ c ∈ visitedSeq f ts, ∃ u ∈ ts, u.cursor = c := by
  intro ts
  induction ts with
  | nil => intro c hc; simp [visitedSeq] at hc
  | cons t rest ih =>
    intro c hc
    simp only [visitedSeq] at hc
    rcases List.mem_cons.mp hc with h | h
    · exact ⟨t, List.mem_cons_self t rest, h.symm⟩
    · by_cases hf : f t.cursor nullCursor = CXChildVisitResult.Continue
      · rw [if_pos hf] at h
        obtain ⟨u, hu, heq⟩ := ih c h
        exact ⟨u, List.mem_cons_of_mem t hu, heq⟩
      · rw [if_neg hf] at h
        simp at h

theorem visitTrees_plain (f : CXCursorV → CXCursorV → Nat) :
    ∀ (ts : List VTree) (fuel : Nat) (parent : CXCursorV) (pre : List (List Nat)),
      ts.length ≤ fuel →
      (∀ u ∈ ts, WFCursor u.cursor) →
      visitTrees fuel parent ts ⟨some (plainVisitor f), pre⟩ =
        (noBreak f ts,
          ⟨some (plainVisitor f), pre ++ (visitedSeq f ts).map encodeCXCursor⟩,
          (visitedSeq f ts).map (fun c => (c, nullCursor))) := by
  intro ts
  induction ts with
  | nil =>
    intro fuel parent pre _ _
    cases fuel with
    | zero => simp [visitTrees, noBreak, visitedSeq]
    | succ k => simp [visitTrees, noBreak, visitedSeq]
  | cons t rest ih =>
    intro fuel parent pre hlen hWF
    cases fuel with
    | zero => simp at hlen
    | succ k =>
      have hcur : parseCursorBuffer (encodeCXCursor t.cursor) = t.cursor :=
        cursor_roundtrip t.cursor (hWF t (List.mem_cons_self t rest))
      have hstep :
          trampolineStep (fun tgt st => visitTrees k tgt.cursor tgt.children st)
            (encodeCXCursor t.cursor) (encodeCXCursor parent)
            ⟨some (plainVisitor f), pre⟩ =
          (mapVisitResult (f t.cursor nullCursor),
            ⟨some (plainVisitor f), pre ++ [encodeCXCursor t.cursor]⟩,
            [(t.cursor, nullCursor)]) := by
        simp [trampolineStep, getVisitor, plainVisitor, addCollectedCursorBuffer, hcur]
      by_cases hf : f t.cursor nullCursor = CXChildVisitResult.Continue
      · have hmap : mapVisitResult (f t.cursor nullCursor) = 1 := by
          rw [hf]; rfl
        have hrest := ih k parent (pre ++ [encodeCXCursor t.cursor])
          (by simpa using hlen)
          (fun u hu => hWF u (List.mem_cons_of_mem t hu))
        simp only [visitTrees, hstep, hmap]
        norm_num
        rw [hrest]
        simp [visitedSeq, noBreak, hf]
      · have hmap : mapVisitResult (f t.cursor nullCursor) = 0 := by
          unfold mapVisitResult
          rw [if_neg (by simpa [CXChildVisitResult.Continue] using hf)]
        simp only [visitTrees, hstep, hmap]
        norm_num
        simp [visitedSeq, noBreak, hf]

/-- Claim C2 (amended): for every cursor (subtree) and every visitor
that does not itself re-enter the traversal bridge (a plain visitor),
`visitChildren` returns exactly the nodes the visitor was invoked on,
in visitation order; the visitor is invoked on exactly that sequence; a
visitor returning Break on the first node yields a length-1 result
however many siblings exist; and every returned element is a
re-encoded snapshot that still decodes to the visited node's cursor
after the traversal has finished.  (For a re-entrant visitor the nested
`setVisitor` call resets the collected-buffer list, so snapshots
collected before the nested call are dropped from the outer result.) -/
theorem visitChildren_output_contract (fuel : Nat) (t : VTree)
    (f : CXCursorV → CXCursorV → Nat) (s : VisitState)
    (hfuel : t.children.length ≤ fuel)
    (hWF : ∀ u ∈ t.children, WFCursor u.cursor) :
    (visitChildren fuel t (plainVisitor f) s).1.1 =
        (visitedSeq f t.children).map encodeCXCursor ∧
    (visitChildren fuel t (plainVisitor f) s).2 =
        (visitedSeq f t.children).map (fun c => (c, nullCursor)) ∧
    (∀ t1 rest, t.children = t1 :: rest →
        f t1.cursor nullCursor = CXChildVisitResult.Break →
        (visitChildren fuel t (plainVisitor f) s).1.1.length = 1) ∧
    (∀ b ∈ (visitChildren fuel t (plainVisitor f) s).1.1,
        ∃ c ∈ visitedSeq f t.children,
          b = encodeCXCursor c ∧ parseCursorBuffer b = c) := by
  have hrun := visitTrees_plain f t.children fuel t.cursor [] hfuel hWF
  have hbuf : (visitChildren fuel t (plainVisitor f) s).1.1 =
      (visitedSeq f t.children).map encodeCXCursor := by
    simp [visitChildren, setVisitor, getCollectedCursorBuffers, hrun]
  have hlog : (visitChildren fuel t (plainVisitor f) s).2 =
      (visitedSeq f t.children).map (fun c => (c, nullCursor)) := by
    simp [visitChildren, setVisitor, hrun]
  refine ⟨hbuf, hlog, ?_, ?_⟩
  · intro t1 rest hch hb
    rw [hbuf, hch]
    simp only [visitedSeq]
    rw [if_neg (by rw [hb]; simp [CXChildVisitResult.Break, CXChildVisitResult.Continue])]
    simp
  · intro b hb
    rw [hbuf] at hb
    obtain ⟨c, hc, hbc⟩ := List.mem_map.mp hb
    refine ⟨c, hc, hbc.symm, ?_⟩
    obtain ⟨u, hu, hcu⟩ := visitedSeq_mem f t.children c hc
    rw [← hbc]
    exact cursor_roundtrip c (hcu ▸ hWF u hu)

/-- Demo cursors and subtrees used to instantiate the traversal theorems. -/
def cStructDemo : CXCursorV := ⟨2, 0, 1, 0, 0⟩

/-- Demo cursor resembling a VarDecl node. -/
def cVarDemo : CXCursorV := ⟨9, 0, 2, 0, 0⟩

/-- Demo cursor resembling a FieldDecl node. -/
def cFieldDemo : CXCursorV := ⟨6, 0, 3, 0, 0⟩

/-- Demo leaf subtree for the field node. -/
def tFieldDemo : VTree := .node cFieldDemo []

/-- Demo struct subtree with one field child. -/
def tStructDemo : VTree := .node cStructDemo [tFieldDemo]

/-- Demo leaf subtree for the variable node. -/
def tVarDemo : VTree := .node cVarDemo []

/-- Demo translation-unit root with two top-level children. -/
def tRootDemo : VTree := .node ⟨350, 0, 0, 0, 0⟩ [tStructDemo, tVarDemo]

/-- Witness for C2: a visitor that returns Break on the first of two
children yields a result sequence of length 1. -/
theorem visitChildren_output_contract_witness :
    (visitChildren 2 tRootDemo
        (plainVisitor (fun _ _ => CXChildVisitResult.Break)) ⟨none, []⟩).1.1.length =
      1 :=
  (visitChildren_output_contract 2 tRootDemo (fun _ _ => CXChildVisitResult.Break)
      ⟨none, []⟩ (by decide) (by decide)).2.2.1 tStructDemo [tVarDemo] rfl rfl

theorem trampolineStep_parents
    (nr : VTree → VisitState → Bool × VisitState × List (CXCursorV × CXCursorV))
    (cb pb : List Nat) (s : VisitState)
    (hnr : ∀ tgt st, ∀ e ∈ (nr tgt st).2.2, e.2 = nullCursor) :
    ∀ e ∈ (trampolineStep nr cb pb s).2.2, e.2 = nullCursor := by
  intro e he
  obtain ⟨slot, coll⟩ := s
  cases slot with
  | none => simp [trampolineStep, getVisitor] at he
  | some v =>
    cases ha : v (parseCursorBuffer cb) nullCursor with
    | res r =>
      simp only [trampolineStep, getVisitor, ha] at he
      simp at he
      rw [he]
    | nestThen target inner r =>
      simp only [trampolineStep, getVisitor, ha] at he
      rcases List.mem_cons.mp he with h | h
      · rw [h]
      · exact hnr target _ e h

theorem visitTrees_parents (fuel : Nat) :
    ∀ (parent : CXCursorV) (ts : List VTree) (s : VisitState),
      ∀ e ∈ (visitTrees fuel parent ts s).2.2, e.2 = nullCursor := by
  induction fuel with
  | zero => intro parent ts s e he; simp [visitTrees] at he
  | succ k ih =>
    intro parent ts s e he
    cases ts with
    | nil => simp [visitTrees] at he
    | cons t rest =>
      have hstep := trampolineStep_parents
        (fun tgt st => visitTrees k tgt.cursor tgt.children st)
        (encodeCXCursor t.cursor) (encodeCXCursor parent) s
        (fun tgt st e he => ih tgt.cursor tgt.children st e he)
      simp only [visitTrees] at he
      split at he
      · exact hstep e he
      · split at he
        · split at he
          · simp only [List.mem_append] at he
            rcases he with (he | he) | he
            · exact hstep e he
            · exact ih t.cursor t.children _ e he
            · exact ih parent rest _ e he
          · simp only [List.mem_append] at he
            rcases he with he | he
            · exact hstep e he
            · exact ih t.cursor t.children _ e he
        · simp only [List.mem_append] at he
          rcases he with he | he
          · exact hstep e he
          · exact ih parent rest _ e he

/-- Claim C10: the visitor only ever receives the sentinel null cursor
(kind 0, xdata 0, all data words null) as its parent argument — in every
invocation of any traversal, for any actual parent — and the trampoline
ignores the parent struct buffer the native callback supplies: its
result is the same for any two parent buffers. -/
theorem visitor_parent_is_null_sentinel :
    (∀ (fuel : Nat) (parent : CXCursorV) (ts : List VTree) (s : VisitState),
      ∀ e ∈ (visitTrees fuel parent ts s).2.2, e.2 = nullCursor) ∧
    (∀ (nr : VTree → VisitState → Bool × VisitState × List (CXCursorV × CXCursorV))
      (cb p q : List Nat) (s : VisitState),
      trampolineStep nr cb p s = trampolineStep nr cb q s) :=
  ⟨visitTrees_parents, fun _ _ _ _ _ => rfl⟩

/-- Witness for C10: in a concrete traversal of two nodes whose real
parent is a nonzero cursor, the logged parent of the first invocation
is the null cursor. -/
theorem visitor_parent_is_null_sentinel_witness :
    ((cStructDemo, nullCursor) :
        CXCursorV × CXCursorV).2 = nullCursor :=
  visitor_parent_is_null_sentinel.1 2 cVarDemo [tStructDemo]
    ⟨some (plainVisitor (fun _ _ => CXChildVisitResult.Continue)), []⟩
    (cStructDemo, nullCursor) (by decide)

/-- Counterexample for C3: the trampoline's return-value mapping does not
give each of the three visitor results its own distinct native
continuation code: Break (1) and Recurse (2) are distinct visitor
results, but both are mapped to the same native code. -/
theorem visit_result_mapping_counterexample :
    mapVisitResult CXChildVisitResult.Break =
      mapVisitResult CXChildVisitResult.Recurse ∧
    CXChildVisitResult.Break ≠ CXChildVisitResult.Recurse := by decide

/-- Claim C3 (amended): the trampoline translates the visitor's result
with the empirically discovered inversion — Continue (0) is returned to
the native library as 1 — while Break (1) and Recurse (2) are both
returned as 0, so Recurse is not given its own code and behaves as
Break; with a plain visitor armed, the trampoline's return value is
exactly this mapping applied to the visitor's result. -/
theorem visit_result_mapping :
    mapVisitResult CXChildVisitResult.Continue = 1 ∧
    mapVisitResult CXChildVisitResult.Break = 0 ∧
    mapVisitResult CXChildVisitResult.Recurse = 0 ∧
    (∀ (nr : VTree → VisitState → Bool × VisitState × List (CXCursorV × CXCursorV))
      (cb pb : List Nat) (f : CXCursorV → CXCursorV → Nat) (pre : List (List Nat)),
      (trampolineStep nr cb pb ⟨some (plainVisitor f), pre⟩).1 =
        mapVisitResult (f (parseCursorBuffer cb) nullCursor)) :=
  ⟨rfl, rfl, rfl, fun _ _ _ _ _ => rfl⟩

theorem visitTrees_noVisitor (fuel : Nat) (parent : CXCursorV) (ts : List VTree)
    (s : VisitState) (hs : s.currentVisitor = none) :
    (visitTrees fuel parent ts s).2.1 = s ∧ (visitTrees fuel parent ts s).2.2 = [] := by
  cases fuel with
  | zero => simp [visitTrees]
  | succ k =>
    cases ts with
    | nil => simp [visitTrees]
    | cons t rest =>
      have hstep :
          trampolineStep (fun tgt st => visitTrees k tgt.cursor tgt.children st)
            (encodeCXCursor t.cursor) (encodeCXCursor parent) s =
          (CXChildVisitResult.Continue, s, []) := by
        unfold trampolineStep
        rw [show getVisitor s = none from hs]
      simp [visitTrees, hstep, CXChildVisitResult.Continue]

/-- The inner visitor as it sits in the global slot during a nested
traversal (the plain inner callback wrapped as an action-valued visitor). -/
def innerSlotVisitor (inner : CXCursorV → CXCursorV → Nat) :
    CXCursorV → CXCursorV → VAction :=
  plainVisitor inner

/-- Claim C4 (amended): when the outer visitor triggers a nested
`visitChildren` on its first node and then asks to continue, finishing
the inner traversal leaves the visitor slot cleared to null instead of
restoring the outer visitor, so the outer traversal's trampoline finds
no visitor on the second sibling, returns the native break code, and
the outer result is truncated to the single snapshot of the nesting
node; the inner traversal's invocations are the only ones after the
first node (the outer visitor is never invoked on the second sibling),
and the inner snapshots do not appear in the outer result. -/
theorem nested_visit_clears_outer_visitor (fuel : Nat) (rc : CXCursorV)
    (t1 t2 tgt : VTree) (inner : CXCursorV → CXCursorV → Nat)
    (v : CXCursorV → CXCursorV → VAction) (s : VisitState)
    (hWF : WFCursor t1.cursor)
    (hv : v t1.cursor nullCursor =
      VAction.nestThen tgt inner CXChildVisitResult.Continue) :
    (visitChildren (fuel + 1) (VTree.node rc [t1, t2]) v s).1.1 =
      [encodeCXCursor t1.cursor] ∧
    (visitChildren (fuel + 1) (VTree.node rc [t1, t2]) v s).2 =
      (t1.cursor, nullCursor) ::
        (visitTrees fuel tgt.cursor tgt.children
          ⟨some (innerSlotVisitor inner), []⟩).2.2 := by
  have hcur : parseCursorBuffer (encodeCXCursor t1.cursor) = t1.cursor :=
    cursor_roundtrip t1.cursor hWF
  have hstep :
      trampolineStep (fun tgt2 st => visitTrees fuel tgt2.cursor tgt2.children st)
        (encodeCXCursor t1.cursor) (encodeCXCursor rc)
        ⟨some v, []⟩ =
      (1, ⟨none, [encodeCXCursor t1.cursor]⟩,
        (t1.cursor, nullCursor) ::
          (visitTrees fuel tgt.cursor tgt.children
            ⟨some (innerSlotVisitor inner), []⟩).2.2) := by
    simp [trampolineStep, getVisitor, hcur, hv, setVisitor, clearCollectedCursors,
      addCollectedCursorBuffer, innerSlotVisitor, mapVisitResult,
      CXChildVisitResult.Continue]
  have hnone := visitTrees_noVisitor fuel rc [t2]
    ⟨none, [encodeCXCursor t1.cursor]⟩ rfl
  have hR : visitTrees (fuel + 1) rc [t1, t2] ⟨some v, []⟩ =
      ((visitTrees fuel rc [t2] ⟨none, [encodeCXCursor t1.cursor]⟩).1,
        ⟨none, [encodeCXCursor t1.cursor]⟩,
        (t1.cursor, nullCursor) ::
          (visitTrees fuel tgt.cursor tgt.children
            ⟨some (innerSlotVisitor inner), []⟩).2.2) := by
    rw [visitTrees, hstep]
    simp [hnone.1, hnone.2]
  constructor
  · show getCollectedCursorBuffers
        (visitTrees (fuel + 1) rc [t1, t2] ⟨some v, []⟩).2.1 =
      [encodeCXCursor t1.cursor]
    rw [hR]
    rfl
  · show (visitTrees (fuel + 1) rc [t1, t2] ⟨some v, []⟩).2.2 =
      (t1.cursor, nullCursor) ::
        (visitTrees fuel tgt.cursor tgt.children
          ⟨some (innerSlotVisitor inner), []⟩).2.2
    rw [hR]

/-- The plain inner visitor used by the nested-traversal demo: always
Continue. -/
def innerContinue : CXCursorV → CXCursorV → Nat :=
  fun _ _ => CXChildVisitResult.Continue

/-- The outer visitor of the nested-traversal demo: on the struct node
it runs a nested traversal of the struct subtree and then continues; on
every other node it continues. -/
def outerNestingVisitor : CXCursorV → CXCursorV → VAction :=
  fun c _ =>
    if c.kind = 2 then
      VAction.nestThen tStructDemo innerContinue CXChildVisitResult.Continue
    else VAction.res CXChildVisitResult.Continue

/-- Counterexample for C4: in a concrete nested traversal whose outer
visitor always asks to continue, the outer result holds only the
nesting node's snapshot — not the snapshots of both top-level children
that the claim's stack discipline would give — and after the first node
the only invocation is the inner traversal's: the outer visitor is
never invoked on the second sibling. -/
theorem nested_visit_counterexample :
    (visitChildren 3 tRootDemo outerNestingVisitor ⟨none, []⟩).1.1 =
      [encodeCXCursor cStructDemo] ∧
    (visitChildren 3 tRootDemo outerNestingVisitor ⟨none, []⟩).1.1 ≠
      [encodeCXCursor cStructDemo, encodeCXCursor cVarDemo] ∧
    (visitChildren 3 tRootDemo outerNestingVisitor ⟨none, []⟩).2 =
      [(cStructDemo, nullCursor), (cFieldDemo, nullCursor)] := by decide

/-- Witness for C4 (amended): the amended statement instantiated on the
demo traversal. -/
theorem nested_visit_clears_outer_visitor_witness :
    (visitChildren 3 (VTree.node ⟨350, 0, 0, 0, 0⟩ [tStructDemo, tVarDemo])
        outerNestingVisitor ⟨none, []⟩).1.1 = [encodeCXCursor cStructDemo] :=
  (nested_visit_clears_outer_visitor 2 ⟨350, 0, 0, 0, 0⟩ tStructDemo tVarDemo
    tStructDemo innerContinue outerNestingVisitor ⟨none, []⟩ (by decide) rfl).1

/-- A re-entrant visitor that runs a nested traversal on the second
top-level demo node (the variable node, kind 9) and continues
everywhere. -/
def outerLateNestingVisitor : CXCursorV → CXCursorV → VAction :=
  fun c _ =>
    if c.kind = 9 then
      VAction.nestThen tStructDemo innerContinue CXChildVisitResult.Continue
    else VAction.res CXChildVisitResult.Continue

/-- Counterexample for C2: with a re-entrant visitor that nests on the
second of two siblings, the invocation log shows the visitor was
invoked on both top-level nodes (and then on the inner node), yet the
returned sequence holds only the second node's snapshot — the nested
`setVisitor` call reset the collected-buffer list and dropped the first
visited node — so the result is not the sequence of exactly the
visited nodes in visitation order. -/
theorem visitChildren_reentrant_counterexample :
    (visitChildren 3 tRootDemo outerLateNestingVisitor ⟨none, []⟩).1.1 =
      [encodeCXCursor cVarDemo] ∧
    (visitChildren 3 tRootDemo outerLateNestingVisitor ⟨none, []⟩).1.1 ≠
      [encodeCXCursor cStructDemo, encodeCXCursor cVarDemo] ∧
    (visitChildren 3 tRootDemo outerLateNestingVisitor ⟨none, []⟩).2 =
      [(cStructDemo, nullCursor), (cVarDemo, nullCursor),
        (cFieldDemo, nullCursor)] := by decide

/-! ## Translation-unit parse entry point

`src/libclang/translation_unit.ts`: `argsToNativePointer` and
`unsavedFilesToNativePointer` are the keep-alive builders,
`parseTranslationUnit` is the parse surface.  The native
`clang_parseTranslationUnit` is an environment parameter; the run
returns the typed result together with the list of native parse calls
made, so that "no native call is attempted" is expressible.  The
C-string encoding of the source path is modelled by passing the path
string itself in the call record. -/

/-- The pointer/keep-alive pair returned by the keep-alive builders. -/
structure ArgsPointerResult where
  ptr : Option Nat
  keepAlive : List (List Nat)
  deriving DecidableEq, Repr

/-- An in-memory file override record. -/
structure CXUnsavedFileV where
  filename : String
  contents : String
  length : Nat
  deriving DecidableEq, Repr

/-- `argsToNativePointer`: the source ignores its argument and returns a
null pointer and an empty keep-alive list (its comment: command line
args not fully implemented). -/
def argsToNativePointer (_args : List String) : ArgsPointerResult :=
  ⟨none, []⟩

/-- `unsavedFilesToNativePointer`: likewise always null with empty
keep-alive. -/
def unsavedFilesToNativePointer (_unsavedFiles : List CXUnsavedFileV) :
    ArgsPointerResult :=
  ⟨none, []⟩

/-- The typed result of `parseTranslationUnit`. -/
structure ParseResultV where
  translationUnit : Option Nat
  error : Option String
  deriving DecidableEq, Repr

/-- One native `clang_parseTranslationUnit` invocation with the argument
values the binding passed. -/
structure ParseCall where
  index : Option Nat
  sourceFile : String
  commandLineArgs : Option Nat
  numArgs : Nat
  unsavedFiles : Option Nat
  numUnsavedFiles : Nat
  flags : Nat
  deriving DecidableEq, Repr

/-- The native parse function as an opaque collaborator. -/
structure ParseEnv where
  clang_parseTranslationUnit :
    Option Nat → String → Option Nat → Nat → Option Nat → Nat → Nat → Option Nat

/-- `parseTranslationUnit` of `src/libclang/translation_unit.ts`: encode
the source path, build args and unsaved-file pointers, call the native
parse with the flag `CXTranslationUnit_Flags.None = 0`, and wrap a null
handle as the typed failure result.  The second component lists the
native parse calls made. -/
def parseTranslationUnit (env : ParseEnv) (index : Option Nat)
    (sourceFile : String) (args : List String)
    (unsavedFiles : List CXUnsavedFileV) : ParseResultV × List ParseCall :=
  let argsResult := argsToNativePointer args
  let unsavedFilesResult := unsavedFilesToNativePointer unsavedFiles
  let unsavedPtr := if unsavedFiles.length > 0 then unsavedFilesResult.ptr else none
  let argPtr := if args.length > 0 then argsResult.ptr else none
  let result := env.clang_parseTranslationUnit index sourceFile argPtr
    args.length unsavedPtr unsavedFiles.length 0
  let call : ParseCall :=
    ⟨index, sourceFile, argPtr, args.length, unsavedPtr, unsavedFiles.length, 0⟩
  match result with
  | none => (⟨none, some "Failed to parse translation unit"⟩, [call])
  | some tu => (⟨some tu, none⟩, [call])

/-- Claim C5 (code bug): `parseTranslationUnit` performs no input
validation.  For every native environment, the call with a null index
and an empty source path still performs exactly one native parse call,
passing the null index and empty path through, and the returned result
is either a success or the generic parse-failure message — never a
typed validation error distinguishing a bad index from a bad path. -/
theorem parseTranslationUnit_no_validation (env : ParseEnv) :
    (parseTranslationUnit env none "" [] []).2 =
      [⟨none, "", none, 0, none, 0, 0⟩] ∧
    ((parseTranslationUnit env none "" [] []).1.error = none ∨
      (parseTranslationUnit env none "" [] []).1.error =
        some "Failed to parse translation unit") := by
  cases h : env.clang_parseTranslationUnit none "" none 0 none 0 0 <;>
    simp [parseTranslationUnit, argsToNativePointer, unsavedFilesToNativePointer, h]

/-- Counterexample for C6: for the one-element argument list, the claim
requires a non-null args pointer and a keep-alive list holding the
encoded string layer and the address layer (two buffers); the code
returns a null pointer and an empty keep-alive list. -/
theorem argsToNativePointer_counterexample :
    ¬ ((argsToNativePointer ["-I/usr/include"]).ptr ≠ none ∧
      (argsToNativePointer ["-I/usr/include"]).keepAlive.length =
        ["-I/usr/include"].length + 1) := by
  simp [argsToNativePointer]

/-- Claim C6 (amended): `argsToNativePointer` ignores its input and
always returns a null pointer with an empty keep-alive list (the
string-encoding and address layers are not built), so
`parseTranslationUnit` always passes a null args pointer together with
the actual argument count to the native call; for an empty argument
list the claimed null pointer and empty keep-alive list do hold. -/
theorem argsToNativePointer_always_null :
    (∀ args : List String, argsToNativePointer args = ⟨none, []⟩) ∧
    argsToNativePointer [] = ⟨none, []⟩ ∧
    (∀ (env : ParseEnv) (index : Option Nat) (src : String)
        (args : List String) (uf : List CXUnsavedFileV),
      (parseTranslationUnit env index src args uf).2 =
        [⟨index, src, none, args.length, none, uf.length, 0⟩]) := by
  refine ⟨fun _ => rfl, rfl, ?_⟩
  intro env index src args uf
  cases h : env.clang_parseTranslationUnit index src
      (if args.length > 0 then (argsToNativePointer args).ptr else none)
      args.length
      (if uf.length > 0 then (unsavedFilesToNativePointer uf).ptr else none)
      uf.length 0 <;>
    simp [parseTranslationUnit, argsToNativePointer, unsavedFilesToNativePointer,
      h, ite_self] <;>
    split at h <;> simp_all [argsToNativePointer, unsavedFilesToNativePointer]

/-! ## Library load/unload lifecycle

`src/libclang/library.ts`: module-global `libclang` handle and resolved
`symbols`, `loadLibclang` guarded by the handle, `load` guarded by the
symbols, `unload` guarded by the handle.  The state carries counters of
native opens (`Deno.dlopen`) and closes to express "exactly one native
open"; a fresh handle is modelled by the open counter's value. -/

/-- The module-global load state plus instrumentation counters. -/
structure LibState where
  libclang : Option Nat
  symbols : Option Nat
  opens : Nat
  closes : Nat
  deriving DecidableEq, Repr

/-- The initial, unloaded state. -/
def initLibState : LibState := ⟨none, none, 0, 0⟩

/-- `loadLibclang`: return early when the handle is already set, else
open the library and resolve the symbols. -/
def loadLibclang (s : LibState) : LibState :=
  match s.libclang with
  | some _ => s
  | none =>
    { libclang := some s.opens, symbols := some s.opens,
      opens := s.opens + 1, closes := s.closes }

/-- `unload`: close and clear both globals when loaded, else do nothing. -/
def unload (s : LibState) : LibState :=
  match s.libclang with
  | some _ =>
    { libclang := none, symbols := none, opens := s.opens, closes := s.closes + 1 }
  | none => s

/-- `load`: return early when the symbols are already resolved, else
delegate to `loadLibclang`. -/
def load (s : LibState) : LibState :=
  match s.symbols with
  | some _ => s
  | none => loadLibclang s

/-- `getSymbols`: the typed not-loaded error, else the resolved symbols. -/
def getSymbols (s : LibState) : Except String Nat :=
  match s.symbols with
  | none => Except.error "libclang not loaded. Call load() first."
  | some y => Except.ok y

/-- Claim C7: loading twice performs exactly one native open (and the
second load changes nothing); unloading twice is a no-op the second
time; and loading after unloading succeeds and restores the accessors
(`getSymbols` yields symbols again). -/
theorem load_unload_idempotent :
    (load (load initLibState)).opens = 1 ∧
    (∀ s : LibState, load (load s) = load s) ∧
    (∀ s : LibState, unload (unload s) = unload s) ∧
    (∀ s : LibState, ∃ y, getSymbols (load (unload s)) = Except.ok y) := by
  refine ⟨rfl, ?_, ?_, ?_⟩
  · intro s
    obtain ⟨l, y, o, c⟩ := s
    cases l <;> cases y <;> simp [load, loadLibclang]
  · intro s
    obtain ⟨l, y, o, c⟩ := s
    cases l <;> simp [unload]
  · intro s
    obtain ⟨l, y, o, c⟩ := s
    cases l <;> cases y <;> simp [unload, load, loadLibclang, getSymbols]

/-! ## Diagnostics enumeration

The diagnostics module: `getDiagnostics` queries the count, then for
each index fetches the diagnostic handle, reads its severity and
spelling, and disposes it before moving on.  The native side is an
environment; the run also produces the trace of handle-level native
events, over which the one-open-handle invariant is stated. -/

/-- A decoded source location; the diagnostics loop fills in the empty
placeholder location. -/
structure SourceLocationV where
  file : Option String
  line : Nat
  column : Nat
  offset : Nat
  deriving DecidableEq, Repr

/-- The placeholder location `{file: null, line: 0, column: 0, offset: 0}`. -/
def emptyLocation : SourceLocationV := ⟨none, 0, 0, 0⟩

/-- A decoded diagnostic record. -/
structure DiagnosticV where
  severity : Nat
  message : String
  location : SourceLocationV
  deriving DecidableEq, Repr

/-- Handle-level native events of the diagnostics enumeration. -/
inductive DiagEvent where
  | queryCount
  | fetch (h : Nat)
  | readSeverity (h : Nat)
  | readSpelling (h : Nat)
  | dispose (h : Nat)
  deriving DecidableEq, Repr

/-- The native diagnostics interface as an opaque collaborator. -/
structure DiagEnv where
  numDiagnostics : Nat
  getDiagnostic : Nat → Nat
  severity : Nat → Nat
  spelling : Nat → String

/-- The four events of one iteration of the enumeration loop. -/
def blockEvents (h : Nat) : List DiagEvent :=
  [DiagEvent.fetch h, DiagEvent.readSeverity h, DiagEvent.readSpelling h,
    DiagEvent.dispose h]

/-- The body of the `for` loop of `getDiagnostics`, over the remaining
indices. -/
def diagLoop (env : DiagEnv) : List Nat → List DiagnosticV × List DiagEvent
  | [] => ([], [])
  | i :: rest =>
    let h := env.getDiagnostic i
    let sev := env.severity h
    let msg := env.spelling h
    let next := diagLoop env rest
    (⟨sev, msg, emptyLocation⟩ :: next.1, blockEvents h ++ next.2)

/-- `getDiagnostics`: query the count first, then loop up to it. -/
def getDiagnostics (env : DiagEnv) : List DiagnosticV × List DiagEvent :=
  let n := env.numDiagnostics
  let run := diagLoop env (List.range n)
  (run.1, DiagEvent.queryCount :: run.2)

/-- +1 for a fetch, -1 for a dispose, 0 otherwise. -/
def eventWeight : DiagEvent → Int
  | .fetch _ => 1
  | .dispose _ => -1
  | _ => 0

/-- Number of diagnostic handles open after a trace. -/
def openCount (tr : List DiagEvent) : Int := (tr.map eventWeight).sum

/-- The handles fetched in a trace, in order. -/
def fetchedHandles (tr : List DiagEvent) : List Nat :=
  tr.filterMap fun e =>
    match e with
    | .fetch h => some h
    | _ => none

/-- The handles disposed in a trace, in order. -/
def disposedHandles (tr : List DiagEvent) : List Nat :=
  tr.filterMap fun e =>
    match e with
    | .dispose h => some h
    | _ => none

theorem diagLoop_spec (env : DiagEnv) :
    ∀ l : List Nat,
      (diagLoop env l).1 = l.map (fun i =>
        ⟨env.severity (env.getDiagnostic i),
          env.spelling (env.getDiagnostic i), emptyLocation⟩) ∧
      (diagLoop env l).2 = l.flatMap (fun i => blockEvents (env.getDiagnostic i)) := by
  intro l
  induction l with
  | nil => simp [diagLoop]
  | cons i rest ih => simp [diagLoop, ih.1, ih.2]

theorem openCount_cons (e : DiagEvent) (tr : List DiagEvent) :
    openCount (e :: tr) = eventWeight e + openCount tr := by
  simp [openCount]

theorem openCount_take_blocks (g : Nat → Nat) :
    ∀ (l : List Nat) (k : Nat),
      0 ≤ openCount ((l.flatMap (fun i => blockEvents (g i))).take k) ∧
      openCount ((l.flatMap (fun i => blockEvents (g i))).take k) ≤ 1 := by
  intro l
  induction l with
  | nil => intro k; simp [openCount]
  | cons i rest ih =>
    intro k
    have hexp : (i :: rest).flatMap (fun j => blockEvents (g j)) =
        DiagEvent.fetch (g i) :: DiagEvent.readSeverity (g i) ::
          DiagEvent.readSpelling (g i) :: DiagEvent.dispose (g i) ::
          rest.flatMap (fun j => blockEvents (g j)) := by
      simp [blockEvents]
    rw [hexp]
    rcases k with _ | _ | _ | _ | k
    · simp [openCount]
    · simp [openCount, eventWeight]
    · simp [openCount, eventWeight]
    · simp [openCount, eventWeight]
    · have ht : (DiagEvent.fetch (g i) :: DiagEvent.readSeverity (g i) ::
          DiagEvent.readSpelling (g i) :: DiagEvent.dispose (g i) ::
          rest.flatMap (fun j => blockEvents (g j))).take (k + 4) =
        DiagEvent.fetch (g i) :: DiagEvent.readSeverity (g i) ::
          DiagEvent.readSpelling (g i) :: DiagEvent.dispose (g i) ::
          (rest.flatMap (fun j => blockEvents (g j))).take k := by
        simp [List.take_succ_cons]
      rw [ht, openCount_cons, openCount_cons, openCount_cons, openCount_cons]
      have := ih k
      simp only [eventWeight]
      omega

/-- Claim C8: `getDiagnostics` queries the count first, then per index
fetches the handle, reads severity and message, and disposes it
immediately: the result decodes every diagnostic in index order, the
trace starts with the count query, the handles disposed are exactly the
handles fetched in the same order (each fetched handle is disposed
exactly once), and after every prefix of the trace at most one
diagnostic handle is open. -/
theorem getDiagnostics_enumeration (env : DiagEnv) :
    (getDiagnostics env).1 =
      (List.range env.numDiagnostics).map (fun i =>
        ⟨env.severity (env.getDiagnostic i),
          env.spelling (env.getDiagnostic i), emptyLocation⟩) ∧
    (getDiagnostics env).2.head? = some DiagEvent.queryCount ∧
    fetchedHandles (getDiagnostics env).2 =
      (List.range env.numDiagnostics).map env.getDiagnostic ∧
    disposedHandles (getDiagnostics env).2 =
      fetchedHandles (getDiagnostics env).2 ∧
    (∀ k : Nat, 0 ≤ openCount ((getDiagnostics env).2.take k) ∧
      openCount ((getDiagnostics env).2.take k) ≤ 1) := by
  have hspec := diagLoop_spec env (List.range env.numDiagnostics)
  have hfetch : ∀ l : List Nat,
      fetchedHandles (l.flatMap (fun i => blockEvents (env.getDiagnostic i))) =
        l.map env.getDiagnostic := by
    intro l
    induction l with
    | nil => simp [fetchedHandles]
    | cons i rest ih => simp [fetchedHandles, blockEvents] at ih ⊢; exact ih
  have hdisp : ∀ l : List Nat,
      disposedHandles (l.flatMap (fun i => blockEvents (env.getDiagnostic i))) =
        l.map env.getDiagnostic := by
    intro l
    induction l with
    | nil => simp [disposedHandles]
    | cons i rest ih => simp [disposedHandles, blockEvents] at ih ⊢; exact ih
  refine ⟨?_, ?_, ?_, ?_, ?_⟩
  · simp [getDiagnostics, hspec.1]
  · simp [getDiagnostics]
  · simp [getDiagnostics, hspec.2, fetchedHandles, hfetch]
    have := hfetch (List.range env.numDiagnostics)
    simp [fetchedHandles] at this
    exact this
  · simp [getDiagnostics, hspec.2, fetchedHandles, disposedHandles]
    have h1 := hfetch (List.range env.numDiagnostics)
    have h2 := hdisp (List.range env.numDiagnostics)
    simp [fetchedHandles] at h1
    simp [disposedHandles] at h2
    rw [h1, h2]
  · intro k
    simp only [getDiagnostics, hspec.2]
    rcases k with _ | k
    · simp [openCount]
    · rw [List.take_succ_cons, openCount_cons]
      have := openCount_take_blocks env.getDiagnostic (List.range env.numDiagnostics) k
      simp only [eventWeight]
      omega

/-! ## Sentinel pass-through of the type accessors

The type module's `getNumArgTypes` and `getArgType`: both normalize the
incoming type (decoded value re-encoded through `cxTypeToBuffer`, raw
buffer passed straight through) and return what the native library
returns; `getArgType` decodes the returned 24-byte struct buffer.  The
`Except` codomain records that no code path raises an error (the only
throw in the module is the not-loaded guard of `getSymbols`, outside
this claim). -/

/-- The normalization applied by each type accessor:
`type instanceof Uint8Array ? type : cxTypeToBuffer(type)`. -/
def normalizeTypeArg (t : Sum CXTypeV (List Nat)) : List Nat :=
  match t with
  | .inl tv => cxTypeToBuffer tv
  | .inr buf => buf

/-- The native type-query functions as an opaque collaborator; the
struct-returning `clang_getArgType` yields a `CXType` value whose
24-byte buffer Deno FFI hands to the binding. -/
structure TypeEnv where
  clang_getNumArgTypes : List Nat → Int
  clang_getArgType : List Nat → Nat → CXTypeV

/-- `getNumArgTypes`: pass the normalized type to the native call and
return its (possibly negative) value unchanged. -/
def getNumArgTypes (env : TypeEnv) (t : Sum CXTypeV (List Nat)) :
    Except String Int :=
  Except.ok (env.clang_getNumArgTypes (normalizeTypeArg t))

/-- `getArgType`: pass the normalized type and index to the native call
and decode the returned struct buffer, whatever its kind. -/
def getArgType (env : TypeEnv) (t : Sum CXTypeV (List Nat)) (argIndex : Nat) :
    Except String CXTypeV :=
  Except.ok (parseCXTypeFromBuffer
    (cxTypeToBuffer (env.clang_getArgType (normalizeTypeArg t) argIndex)))

/-- Claim C9: `getNumArgTypes` returns whatever value the native library
returns — the negative not-a-function sentinel included — as a
successful result, never an error; and `getArgType` returns the native
library's struct — the invalid/void sentinel kind included — decoded
but otherwise unchanged, never an error. -/
theorem sentinel_passthrough :
    (∀ (env : TypeEnv) (t : Sum CXTypeV (List Nat)),
      getNumArgTypes env t =
        Except.ok (env.clang_getNumArgTypes (normalizeTypeArg t))) ∧
    (∀ (env : TypeEnv) (t : Sum CXTypeV (List Nat)) (i : Nat),
      WFType (env.clang_getArgType (normalizeTypeArg t) i) →
      getArgType env t i =
        Except.ok (env.clang_getArgType (normalizeTypeArg t) i)) := by
  constructor
  · intro env t
    rfl
  · intro env t i hWF
    unfold getArgType
    rw [type_roundtrip _ hWF]

/-- A native environment that answers with the sentinels: argument count
-1 (not a function type) and the kind-0 invalid type for any argument
index. -/
def sentinelTypeEnv : TypeEnv :=
  ⟨fun _ => -1, fun _ _ => ⟨0, 0, 0, 0⟩⟩

/-- Witness for C9: with the sentinel-answering native environment, the
accessors surface -1 and the invalid-kind type as ordinary results. -/
theorem sentinel_passthrough_witness :
    getNumArgTypes sentinelTypeEnv (Sum.inl ⟨111, 0, 0, 0⟩) = Except.ok (-1) ∧
    getArgType sentinelTypeEnv (Sum.inl ⟨111, 0, 0, 0⟩) 100 =
      Except.ok ⟨0, 0, 0, 0⟩ :=
  ⟨sentinel_passthrough.1 sentinelTypeEnv (Sum.inl ⟨111, 0, 0, 0⟩),
   sentinel_passthrough.2 sentinelTypeEnv (Sum.inl ⟨111, 0, 0, 0⟩) 100 (by decide)⟩

end DenoLibclang
